import Mathlib

/-!
Shallow embedding of the junior-ledger client-side caching and aggregation
logic: the Canvas file-cache reconciler, the extracted-text cache, the
folder-access probe, assignment aggregation, the auto-refresh scheduler,
the persisted-store write paths and the per-course Canvas file cache.

Conventions of the embedding:
* JavaScript timestamps (the result of new Date(s).getTime()) are modelled
  as Int milliseconds; comparisons of parsed dates in the source become Int
  comparisons here.
* JavaScript string operations used by the source (toLowerCase, endsWith,
  startsWith, trim, substring containment) are re-implemented over List Char
  by structural recursion so that every definition evaluates inside the
  kernel.
* Asynchronous calls that can fail are modelled with Except; the browser
  local-storage write is modelled by its observable outcome.
-/

/-! ## Character-level string operations (JS semantics) -/

/-- ASCII lower-casing of one character, as String.prototype.toLowerCase
acts on the ASCII range used by the source's keyword and extension checks. -/
def lowerChar (c : Char) : Char :=
  if 'A' ≤ c && c ≤ 'Z' then Char.ofNat (c.toNat + 32) else c

/-- The character list of s.toLowerCase(). -/
def toLowerChars (s : String) : List Char := s.toList.map lowerChar

/-- Whether the first list starts with the second (String.prototype.startsWith). -/
def startsWithChars : List Char → List Char → Bool
  | _, [] => true
  | [], _ :: _ => false
  | c :: cs, p :: ps => c == p && startsWithChars cs ps

/-- Whether the first list contains the second as a contiguous run
(String.prototype.includes). -/
def containsChars : List Char → List Char → Bool
  | [], pat => startsWithChars [] pat
  | c :: cs, pat => startsWithChars (c :: cs) pat || containsChars cs pat

/-- Whether the first list ends with the second (String.prototype.endsWith). -/
def endsWithChars (s pat : List Char) : Bool :=
  startsWithChars s.reverse pat.reverse

/-- The whitespace characters relevant to String.prototype.trim for the
source's extracted text. -/
def isWsChar (c : Char) : Bool :=
  c == ' ' || c == '\t' || c == '\n' || c == '\r'

/-- String.prototype.trim over a character list. -/
def trimChars (l : List Char) : List Char :=
  ((l.dropWhile isWsChar).reverse.dropWhile isWsChar).reverse

/-! ## Folder Access Prober (googleCalendar.ts, testFolderAccess) -/

/-- The observable outcome of the probe request: an HTTP response with a
status code, or a thrown network error. -/
inductive ProbeOutcome where
  | response (status : Nat)
  | networkError
deriving DecidableEq

/-- testFolderAccess: returns response.status !== 403, and true when the
fetch throws (the catch branch assumes accessible). -/
def testFolderAccess : ProbeOutcome → Bool
  | .response status => status != 403
  | .networkError => true

/-! ## File Cache Reconciler (JuniorAssistant.tsx, extractCourseFiles) -/

/-- The Canvas file metadata the reconciler consumes. modified_at holds the
parsed timestamp of modified_at || updated_at. -/
structure CanvasFile where
  id : Nat
  name : String
  content_type : String
  size : Nat
  url : String
  modified_at : Int
  locked : Bool
  hidden : Bool
deriving DecidableEq

/-- A locally cached copy of a Canvas file (courseStorage CachedCanvasFile);
modifiedAt holds the parsed remote modification timestamp captured at
download time, cachedAt the parse of the local cache write time. -/
structure CachedCanvasFile where
  canvasId : Nat
  name : String
  type : String
  size : Nat
  data : String
  url : String
  modifiedAt : Int
  cachedAt : Int
  courseId : Nat
deriving DecidableEq

/-- The Map built by extractCourseFiles from getCachedCanvasFiles via
cachedFilesMap.set(file.canvasId, file): later list entries win. -/
def buildCachedFilesMap (files : List CachedCanvasFile) : Nat → Option CachedCanvasFile :=
  files.foldl (fun m f => fun id => if id = f.canvasId then some f else m id) (fun _ => none)

/-- The forEach of extractCourseFiles over supportedCanvasFiles as the
source executes it. The accumulator carries (filesToDownload, filesToUse)
as built so far. On a cache miss the file is pushed onto filesToDownload
and the next statement assigns true to the identifier hasNewOrUpdatedFiles
(JuniorAssistant.tsx line 116), which is declared nowhere; in a module
(strict mode) that assignment throws a ReferenceError, aborting the loop
with the lists as accumulated at the throw — the error value here. The
cache-hit branch behaves the same on a strictly newer remote timestamp
(push, then the line 123 assignment throws); an equal or older remote
timestamp pushes the cached entry onto filesToUse and continues. Normal
completion returns the accumulated lists. -/
def reconcileForEach (cachedMap : Nat → Option CachedCanvasFile)
    (acc : List CanvasFile × List CachedCanvasFile) :
    List CanvasFile →
      Except (List CanvasFile × List CachedCanvasFile)
        (List CanvasFile × List CachedCanvasFile)
  | [] => .ok acc
  | f :: rest =>
    match cachedMap f.id with
    | none => .error (acc.1 ++ [f], acc.2)
    | some cached =>
      if cached.modifiedAt < f.modified_at then .error (acc.1 ++ [f], acc.2)
      else reconcileForEach cachedMap (acc.1, acc.2 ++ [cached]) rest

/-- The downloads extractCourseFiles actually issues for a course: the
forEach runs inside the try whose catch (JuniorAssistant.tsx line 183)
logs and falls through to the cached files, so a thrown loop yields no
download; a completed loop downloads its filesToDownload list. -/
def downloadsIssued (cachedMap : Nat → Option CachedCanvasFile)
    (supported : List CanvasFile) : List CanvasFile :=
  match reconcileForEach cachedMap ([], []) supported with
  | .error _ => []
  | .ok result => result.1

/-- Timestamp of 2024-01-01 (epoch milliseconds). -/
def ts20240101 : Int := 1704067200000

/-- Timestamp of 2024-01-05 (epoch milliseconds). -/
def ts20240105 : Int := 1704412800000

/-- Remote Canvas file 1 of the end-to-end reconciliation scenario. -/
def remoteFile1 : CanvasFile :=
  ⟨1, "syllabus.pdf", "application/pdf", 100, "u1", ts20240101, false, false⟩

/-- Remote Canvas file 2 of the end-to-end reconciliation scenario. -/
def remoteFile2 : CanvasFile :=
  ⟨2, "notes.docx", "application/vnd.openxmlformats-officedocument.wordprocessingml.document",
    200, "u2", ts20240105, false, false⟩

/-- Cached copy of file 1 carrying the same modified_at timestamp. -/
def cachedFile1 : CachedCanvasFile :=
  ⟨1, "syllabus.pdf", "application/pdf", 100, "d1", "u1", ts20240101, ts20240105, 55⟩

/-- Cached copy of file 2 carrying the same modified_at timestamp. -/
def cachedFile2 : CachedCanvasFile :=
  ⟨2, "notes.docx", "application/vnd.openxmlformats-officedocument.wordprocessingml.document",
    200, "d2", "u2", ts20240105, ts20240105, 55⟩

/-! ## Theorems: C3 and C1 -/

/-- C3: a folder probe is classified restricted exactly on an HTTP 403
response; a 200, a 404 and a thrown network error all classify accessible
(testFolderAccess returns true). -/
theorem testFolderAccess_restricted_iff_403 :
    (∀ o : ProbeOutcome, testFolderAccess o = false ↔ o = .response 403)
    ∧ testFolderAccess (.response 200) = true
    ∧ testFolderAccess (.response 404) = true
    ∧ testFolderAccess .networkError = true
    ∧ testFolderAccess (.response 403) = false := by
  refine ⟨?_, rfl, rfl, rfl, rfl⟩
  intro o
  cases o with
  | response s =>
    constructor
    · intro h
      have hs : s = 403 := by
        by_contra hne
        simp [testFolderAccess, hne] at h
      exact hs ▸ rfl
    · intro h
      have hs : s = 403 := by injection h
      subst hs
      rfl
  | networkError => simp [testFolderAccess]

/-- C1, evaluated on the code as written: at the claim's own scenario — an
empty cache against remote files 1 (2024-01-01) and 2 (2024-01-05) — the
forEach pushes file 1 and then throws on the undeclared
hasNewOrUpdatedFiles, aborting with the download list at [1], never [1, 2],
and the catch means no download is issued; in general the loop only
completes normally when it never took a download branch, so a completed
run adds nothing to the download list and the code as written never issues
any download; the reuse half survives: with both files cached at those
exact timestamps the loop completes, reusing both cached entries with an
empty download list. -/
theorem reconciler_loop_aborts_on_first_download :
    reconcileForEach (buildCachedFilesMap []) ([], []) [remoteFile1, remoteFile2]
      = .error ([remoteFile1], [])
    ∧ (∀ (cachedMap : Nat → Option CachedCanvasFile)
        (acc : List CanvasFile × List CachedCanvasFile)
        (supported : List CanvasFile)
        (result : List CanvasFile × List CachedCanvasFile),
        reconcileForEach cachedMap acc supported = .ok result → result.1 = acc.1)
    ∧ (∀ (cachedMap : Nat → Option CachedCanvasFile) (supported : List CanvasFile),
        downloadsIssued cachedMap supported = [])
    ∧ reconcileForEach (buildCachedFilesMap [cachedFile1, cachedFile2]) ([], [])
        [remoteFile1, remoteFile2] = .ok ([], [cachedFile1, cachedFile2]) := by
  have hok : ∀ (cachedMap : Nat → Option CachedCanvasFile)
      (supported : List CanvasFile)
      (acc : List CanvasFile × List CachedCanvasFile)
      (result : List CanvasFile × List CachedCanvasFile),
      reconcileForEach cachedMap acc supported = .ok result → result.1 = acc.1 := by
    intro cachedMap supported
    induction supported with
    | nil =>
      intro acc result h
      injection h with h2
      rw [← h2]
    | cons f rest ih =>
      intro acc result h
      unfold reconcileForEach at h
      split at h
      · cases h
      · rename_i cached heq
        by_cases hlt : cached.modifiedAt < f.modified_at
        · rw [if_pos hlt] at h
          cases h
        · rw [if_neg hlt] at h
          exact ih (acc.1, acc.2 ++ [cached]) result h
  refine ⟨rfl, fun m acc s r => hok m s acc r, ?_, rfl⟩
  intro cachedMap supported
  unfold downloadsIssued
  cases hr : reconcileForEach cachedMap ([], []) supported with
  | error e => rfl
  | ok result => exact hok cachedMap supported ([], []) result hr

/-! ## Per-course Canvas file cache (courseStorage, cacheCanvasFile) -/

/-- cacheCanvasFile: find the entry with the same canvasId via findIndex;
replace it in place when present, append the file otherwise. -/
def cacheCanvasFile (files : List CachedCanvasFile) (file : CachedCanvasFile) :
    List CachedCanvasFile :=
  match files.findIdx? (fun f => f.canvasId == file.canvasId) with
  | some i => files.set i file
  | none => files ++ [file]

/-- getCachedCanvasFile: files.find(f => f.canvasId === canvasId) or null. -/
def getCachedCanvasFile (files : List CachedCanvasFile) (canvasId : Nat) :
    Option CachedCanvasFile :=
  files.find? (fun f => f.canvasId == canvasId)

/-- Structural form of cacheCanvasFile: replace the first entry with a
matching canvasId, else append. -/
def cacheCanvasFileRec (files : List CachedCanvasFile) (file : CachedCanvasFile) :
    List CachedCanvasFile :=
  match files with
  | [] => [file]
  | f :: fs =>
    if f.canvasId == file.canvasId then file :: fs
    else f :: cacheCanvasFileRec fs file

lemma cacheCanvasFile_eq_rec (files : List CachedCanvasFile) (file : CachedCanvasFile) :
    cacheCanvasFile files file = cacheCanvasFileRec files file := by
  induction files with
  | nil => rfl
  | cons f fs ih =>
    by_cases h : (f.canvasId == file.canvasId) = true
    · simp [cacheCanvasFile, cacheCanvasFileRec, List.findIdx?_cons, h]
    · rw [Bool.not_eq_true] at h
      unfold cacheCanvasFile cacheCanvasFileRec
      rw [List.findIdx?_cons, h]
      simp only [Bool.false_eq_true, if_false, List.findIdx?_succ]
      cases hidx : List.findIdx? (fun g => g.canvasId == file.canvasId) fs with
      | none =>
        simp only [hidx, Option.map_none', h, List.cons_append]
        rw [← ih]
        unfold cacheCanvasFile
        rw [hidx]
      | some i =>
        simp only [hidx, Option.map_some', h, List.set_cons_succ]
        rw [← ih]
        unfold cacheCanvasFile
        rw [hidx]

lemma mem_cacheCanvasFileRec {files : List CachedCanvasFile} {file b : CachedCanvasFile}
    (hb : b ∈ cacheCanvasFileRec files file) : b ∈ files ∨ b = file := by
  induction files with
  | nil =>
    simp [cacheCanvasFileRec] at hb
    exact Or.inr hb
  | cons f fs ih =>
    unfold cacheCanvasFileRec at hb
    by_cases h : (f.canvasId == file.canvasId) = true
    · rw [if_pos h] at hb
      rcases List.mem_cons.mp hb with hb | hb
      · exact Or.inr hb
      · exact Or.inl (List.mem_cons_of_mem _ hb)
    · rw [if_neg h] at hb
      rcases List.mem_cons.mp hb with hb | hb
      · exact Or.inl (hb ▸ List.mem_cons_self _ _)
      · rcases ih hb with hb | hb
        · exact Or.inl (List.mem_cons_of_mem _ hb)
        · exact Or.inr hb

lemma pairwise_cacheCanvasFileRec {files : List CachedCanvasFile} {file : CachedCanvasFile}
    (hp : files.Pairwise (fun a b => a.canvasId ≠ b.canvasId)) :
    (cacheCanvasFileRec files file).Pairwise (fun a b => a.canvasId ≠ b.canvasId) := by
  induction files with
  | nil => simp [cacheCanvasFileRec]
  | cons f fs ih =>
    rcases List.pairwise_cons.mp hp with ⟨hf, hfs⟩
    unfold cacheCanvasFileRec
    by_cases h : (f.canvasId == file.canvasId) = true
    · rw [if_pos h]
      refine List.pairwise_cons.mpr ⟨?_, hfs⟩
      intro b hb
      exact (beq_iff_eq.mp h) ▸ hf b hb
    · rw [if_neg h]
      refine List.pairwise_cons.mpr ⟨?_, ih hfs⟩
      intro b hb
      rcases mem_cacheCanvasFileRec hb with hb | hb
      · exact hf b hb
      · subst hb
        exact fun hcontra => h (beq_iff_eq.mpr hcontra)

lemma lookup_cacheCanvasFileRec (files : List CachedCanvasFile) (file : CachedCanvasFile) :
    getCachedCanvasFile (cacheCanvasFileRec files file) file.canvasId = some file := by
  induction files with
  | nil => simp [cacheCanvasFileRec, getCachedCanvasFile, List.find?_cons]
  | cons f fs ih =>
    unfold cacheCanvasFileRec
    by_cases h : (f.canvasId == file.canvasId) = true
    · rw [if_pos h]
      simp [getCachedCanvasFile, List.find?_cons]
    · rw [if_neg h]
      unfold getCachedCanvasFile at ih ⊢
      rw [List.find?_cons]
      have h2 : (f.canvasId == file.canvasId) = false := Bool.not_eq_true _ |>.mp h
      simp only [h2]
      exact ih

/-- C10: cacheCanvasFile preserves uniqueness of canvasId keys, replacing
in place on a hit and appending on a miss, and looking the key up
afterwards returns the file just cached. -/
theorem cacheCanvasFile_preserves_unique_ids :
    (∀ (files : List CachedCanvasFile) (file : CachedCanvasFile),
        files.Pairwise (fun a b => a.canvasId ≠ b.canvasId) →
          (cacheCanvasFile files file).Pairwise (fun a b => a.canvasId ≠ b.canvasId))
    ∧ (∀ (files : List CachedCanvasFile) (file : CachedCanvasFile),
        getCachedCanvasFile (cacheCanvasFile files file) file.canvasId = some file) := by
  constructor
  · intro files file hp
    rw [cacheCanvasFile_eq_rec]
    exact pairwise_cacheCanvasFileRec hp
  · intro files file
    rw [cacheCanvasFile_eq_rec]
    exact lookup_cacheCanvasFileRec files file

/-- Closed instance of C10 at a one-entry cache. -/
theorem cacheCanvasFile_preserves_unique_ids_witness :
    (cacheCanvasFile [cachedFile1] cachedFile2).Pairwise
      (fun a b => a.canvasId ≠ b.canvasId) :=
  cacheCanvasFile_preserves_unique_ids.1 [cachedFile1] cachedFile2 (by simp)

/-! ## Text Extraction Cache validity (courseStorage CachedExtractedText) -/

/-- One cached extraction (courseStorage CachedExtractedText): canvasId is
absent for user uploads; fileModifiedAt records the source file's
modification date string for Canvas files. -/
structure CachedExtractedText where
  canvasId : Option Nat
  fileName : String
  text : String
  fileModifiedAt : Option String
  extractedAt : String
deriving DecidableEq

/-- The per-course consolidated store of cached extractions. -/
structure CachedExtractedTexts where
  texts : List CachedExtractedText
  cachedAt : String
deriving DecidableEq

/-- getCachedExtractedText: parse of the stored value, null when the key is
absent or the stored JSON is corrupt (both are the none case here). -/
def getCachedExtractedText (stored : Option CachedExtractedTexts) :
    Option CachedExtractedTexts :=
  stored

/-- Modelled from the spec: the consumer of getCachedExtractedText that
decides reuse versus re-extraction is not among the repository's files
(only the accessor and the CachedExtractedText shape are); section 4.4 of
the spec states that a Canvas file's cached text is reused only when the
entry's recorded fileModifiedAt is bit-for-bit equal to the file's current
modifiedAt, and that any mismatch schedules re-extraction. -/
def cachedExtractedTextIsValid (entry : CachedExtractedText)
    (currentModifiedAt : String) : Bool :=
  match entry.fileModifiedAt with
  | some recorded => recorded == currentModifiedAt
  | none => false

/-- C2: a cached extracted-text entry is treated as valid (text reused)
iff its recorded fileModifiedAt exactly equals the file's current
modification time; any difference, including a current time older than the
recorded one, forces re-extraction. -/
theorem cachedExtractedText_valid_iff_exact :
    (∀ (entry : CachedExtractedText) (current : String),
        cachedExtractedTextIsValid entry current = true ↔
          entry.fileModifiedAt = some current)
    ∧ (∀ (entry : CachedExtractedText) (current : String),
        entry.fileModifiedAt ≠ some current →
          cachedExtractedTextIsValid entry current = false) := by
  have hiff : ∀ (entry : CachedExtractedText) (current : String),
      cachedExtractedTextIsValid entry current = true ↔
        entry.fileModifiedAt = some current := by
    intro entry current
    unfold cachedExtractedTextIsValid
    cases h : entry.fileModifiedAt with
    | none => simp
    | some recorded => simp [beq_iff_eq]
  refine ⟨hiff, ?_⟩
  intro entry current hne
  by_contra hval
  rw [Bool.not_eq_false] at hval
  exact hne ((hiff entry current).mp hval)

/-- Sample cached extraction used by the C2 witness. -/
def sampleExtractedEntry : CachedExtractedText :=
  ⟨some 1, "syllabus.pdf", "week 1 topics", some "2024-01-05T00:00:00Z",
    "2024-01-06T12:00:00Z"⟩

/-- Closed instance of C2: a current modification time older than the
recorded one is a mismatch and invalidates the entry. -/
theorem cachedExtractedText_valid_iff_exact_witness :
    cachedExtractedTextIsValid sampleExtractedEntry "2024-01-01T00:00:00Z" = false :=
  cachedExtractedText_valid_iff_exact.2 sampleExtractedEntry "2024-01-01T00:00:00Z"
    (by decide)

/-! ## Batch text extraction (fileExtraction.ts) -/

/-- The file formats extractTextFromFile dispatches on. -/
inductive FileKind where
  | pdf
  | docx
  | xlsx
  | pptx
  | plainText
  | unsupported
deriving DecidableEq

/-- The dispatch cascade of extractTextFromFile: MIME type or lower-cased
file extension, tried in source order, plain text matched by a text/ MIME
prefix or a .txt or .md extension. -/
def classifyFile (fileName fileType : String) : FileKind :=
  let lower := toLowerChars fileName
  if fileType == "application/pdf" || endsWithChars lower (".pdf".toList) then .pdf
  else if fileType == "application/vnd.openxmlformats-officedocument.wordprocessingml.document"
      || endsWithChars lower (".docx".toList) then .docx
  else if fileType == "application/vnd.openxmlformats-officedocument.spreadsheetml.sheet"
      || endsWithChars lower (".xlsx".toList) then .xlsx
  else if fileType == "application/vnd.openxmlformats-officedocument.presentationml.presentation"
      || endsWithChars lower (".pptx".toList) then .pptx
  else if startsWithChars fileType.toList ("text/".toList)
      || endsWithChars lower (".txt".toList) || endsWithChars lower (".md".toList) then .plainText
  else .unsupported

/-- One input of the batch extraction: name, MIME type and base64 payload. -/
structure FileInput where
  name : String
  type : String
  data : String
deriving DecidableEq

/-- One output of the batch extraction. -/
structure ExtractedText where
  fileName : String
  text : String
deriving DecidableEq

/-- extractTextFromFile over an oracle giving each format extractor's
behaviour on the payload (ok with the produced text, or a thrown error):
an unsupported format logs a warning and yields the empty string. -/
def extractTextFromFile (extractors : FileKind → String → Except Unit String)
    (fileName fileType fileData : String) : Except Unit String :=
  match classifyFile fileName fileType with
  | .unsupported => .ok ""
  | kind => extractors kind fileData

/-- extractTextFromFiles: the sequential loop over the input files; a
thrown extraction is caught and the loop continues; a result that is empty
or whitespace-only is dropped. -/
def extractTextFromFiles (extractors : FileKind → String → Except Unit String) :
    List FileInput → List ExtractedText
  | [] => []
  | f :: rest =>
    match extractTextFromFile extractors f.name f.type f.data with
    | .error _ => extractTextFromFiles extractors rest
    | .ok text =>
      if text ≠ "" ∧ trimChars text.toList ≠ [] then
        ⟨f.name, text⟩ :: extractTextFromFiles extractors rest
      else
        extractTextFromFiles extractors rest

/-- C7: the batch extraction returns exactly the (fileName, text) pairs, in
input order, of files whose extraction produced non-empty non-whitespace
text; an unsupported format yields the empty string and hence no entry, and
a failing extraction yields no entry and leaves the rest of the batch
untouched. -/
theorem extractTextFromFiles_spec :
    (∀ (extractors : FileKind → String → Except Unit String) (files : List FileInput),
        extractTextFromFiles extractors files =
          files.filterMap (fun f =>
            match extractTextFromFile extractors f.name f.type f.data with
            | .error _ => none
            | .ok text =>
              if text ≠ "" ∧ trimChars text.toList ≠ [] then some ⟨f.name, text⟩
              else none))
    ∧ (∀ (extractors : FileKind → String → Except Unit String) (f : FileInput)
        (rest : List FileInput),
        extractTextFromFile extractors f.name f.type f.data = .error () →
          extractTextFromFiles extractors (f :: rest) = extractTextFromFiles extractors rest)
    ∧ (∀ (extractors : FileKind → String → Except Unit String) (f : FileInput),
        classifyFile f.name f.type = .unsupported →
          extractTextFromFile extractors f.name f.type f.data = .ok "") := by
  refine ⟨?_, ?_, ?_⟩
  · intro extractors files
    induction files with
    | nil => rfl
    | cons f rest ih =>
      rw [List.filterMap_cons]
      cases hx : extractTextFromFile extractors f.name f.type f.data with
      | error e =>
        simp only [extractTextFromFiles, hx]
        exact ih
      | ok text =>
        by_cases hkeep : text ≠ "" ∧ trimChars text.toList ≠ []
        · simp only [extractTextFromFiles, hx, if_pos hkeep]
          exact congrArg _ ih
        · simp only [extractTextFromFiles, hx, if_neg hkeep]
          exact ih
  · intro extractors f rest hx
    simp only [extractTextFromFiles, hx]
  · intro extractors f hclass
    unfold extractTextFromFile
    rw [hclass]

/-- Extraction oracle for the C7 witness: PDF extraction throws, every
other supported format succeeds with fixed text. -/
def pdfFailExtractors : FileKind → String → Except Unit String :=
  fun kind _ =>
    match kind with
    | FileKind.pdf => Except.error ()
    | _ => Except.ok "notes body"

/-- A failing PDF input for the C7 witness. -/
def pdfInput : FileInput := ⟨"deck.pdf", "application/pdf", "q"⟩

/-- A succeeding markdown input for the C7 witness. -/
def mdInput : FileInput := ⟨"readme.md", "text/markdown", "r"⟩

/-- Closed instance of C7: a file whose extraction throws contributes
nothing and does not abort the extraction of the remaining files. -/
theorem extractTextFromFiles_spec_witness :
    extractTextFromFiles pdfFailExtractors [pdfInput, mdInput] =
      extractTextFromFiles pdfFailExtractors [mdInput] :=
  extractTextFromFiles_spec.2.1 pdfFailExtractors pdfInput [mdInput] rfl

/-! ## Assignment aggregation (ClassCard.tsx and DaysUntilExam.tsx) -/

/-- A Canvas submission object, carrying its workflow state. -/
structure Submission where
  workflow_state : String
deriving DecidableEq

/-- A Canvas assignment as the aggregation consumes it; due_at holds the
parsed timestamp when present. -/
structure Assignment where
  id : Nat
  name : String
  due_at : Option Int
  submission : Option Submission
deriving DecidableEq

/-- isAssignmentSubmitted: true when a submission object exists whose
workflow_state is submitted or graded. -/
def isAssignmentSubmitted (a : Assignment) : Bool :=
  match a.submission with
  | some s => s.workflow_state == "submitted" || s.workflow_state == "graded"
  | none => false

/-- Milliseconds per day. -/
def msPerDay : Int := 86400000

/-- setHours(0,0,0,0): truncation of a timestamp to the start of its day,
with the local timezone offset folded into the epoch. -/
def startOfDay (t : Int) : Int := msPerDay * (t.fdiv msPerDay)

/-- The sort key: new Date(a.due_at).getTime() of the comparator (every
sorted assignment has passed the due_at presence filter). -/
def dueKey (a : Assignment) : Int := a.due_at.getD 0

/-- The ascending comparator (a, b) => dateA - dateB as a stable order. -/
def dueLe (a b : Assignment) : Bool := decide (dueKey a ≤ dueKey b)

/-- The filter of fetchNextAssignment: a due date must exist, the
assignment must not be submitted or graded, and the due day (truncated to
midnight) must not precede today (truncated to midnight). -/
def upcomingFilter (now : Int) (a : Assignment) : Bool :=
  match a.due_at with
  | none => false
  | some due => !(isAssignmentSubmitted a) && decide (startOfDay now ≤ startOfDay due)

/-- upcomingAssignments of fetchNextAssignment: filter then sort ascending
by due date. -/
def upcomingAssignments (now : Int) (assignments : List Assignment) : List Assignment :=
  (assignments.filter (upcomingFilter now)).mergeSort dueLe

/-- The exam keyword check of fetchExams: the lower-cased name contains
exam, final, midterm or test. -/
def isExamNamed (a : Assignment) : Bool :=
  containsChars (toLowerChars a.name) ("exam".toList)
    || containsChars (toLowerChars a.name) ("final".toList)
    || containsChars (toLowerChars a.name) ("midterm".toList)
    || containsChars (toLowerChars a.name) ("test".toList)

/-- The filter of fetchExams: upcoming, unsubmitted and exam-named. -/
def upcomingExamFilter (now : Int) (a : Assignment) : Bool :=
  match a.due_at with
  | none => false
  | some due =>
    !(isAssignmentSubmitted a) && isExamNamed a
      && decide (startOfDay now ≤ startOfDay due)

/-- upcomingExams of fetchExams: filter then sort ascending by due date. -/
def upcomingExams (now : Int) (assignments : List Assignment) : List Assignment :=
  (assignments.filter (upcomingExamFilter now)).mergeSort dueLe

/-- The headline selection of fetchExams: the first upcoming exam. -/
def nearestExam (now : Int) (assignments : List Assignment) : Option Assignment :=
  (upcomingExams now assignments).head?

lemma dueLe_trans (a b c : Assignment) :
    dueLe a b = true → dueLe b c = true → dueLe a c = true := by
  simp only [dueLe, decide_eq_true_eq]
  exact le_trans

lemma dueLe_total (a b : Assignment) : (dueLe a b || dueLe b a) = true := by
  simp only [dueLe, Bool.or_eq_true, decide_eq_true_eq]
  exact le_total _ _

lemma pairwise_dueKey_of_mergeSort (l : List Assignment) :
    (l.mergeSort dueLe).Pairwise (fun a b => dueKey a ≤ dueKey b) :=
  (List.sorted_mergeSort dueLe_trans dueLe_total l).imp
    (fun h => by simpa [dueLe] using h)

lemma upcomingFilter_eq_true_iff (now : Int) (a : Assignment) :
    upcomingFilter now a = true ↔
      ∃ due, a.due_at = some due ∧ isAssignmentSubmitted a = false ∧
        startOfDay now ≤ startOfDay due := by
  unfold upcomingFilter
  cases h : a.due_at with
  | none => simp
  | some due =>
    simp [Bool.and_eq_true, Bool.not_eq_true', decide_eq_true_eq]

lemma startOfDay_mono {now due : Int} (h : now ≤ due) :
    startOfDay now ≤ startOfDay due := by
  unfold startOfDay
  have hpos : (0 : Int) < msPerDay := by decide
  rw [Int.fdiv_eq_ediv _ (le_of_lt hpos), Int.fdiv_eq_ediv _ (le_of_lt hpos)]
  exact Int.mul_le_mul_of_nonneg_left (Int.ediv_le_ediv hpos h) (le_of_lt hpos)

/-- C4 (amended): the upcoming aggregation contains an assignment iff it
has a due date, is not submitted or graded, and its due day — both sides
truncated to midnight — is not before today, so an assignment due earlier
on the current day is still included while anything due on an earlier day
is excluded; every strictly future due date is included (day truncation is
monotone); the result is sorted ascending by due date. -/
theorem upcomingAssignments_spec :
    (∀ (now : Int) (assignments : List Assignment) (a : Assignment),
        a ∈ upcomingAssignments now assignments ↔
          a ∈ assignments ∧ ∃ due, a.due_at = some due ∧
            isAssignmentSubmitted a = false ∧ startOfDay now ≤ startOfDay due)
    ∧ (∀ now due : Int, now ≤ due → startOfDay now ≤ startOfDay due)
    ∧ (∀ (now : Int) (assignments : List Assignment),
        (upcomingAssignments now assignments).Pairwise
          (fun a b => dueKey a ≤ dueKey b)) := by
  refine ⟨?_, fun _ _ => startOfDay_mono, ?_⟩
  · intro now assignments a
    unfold upcomingAssignments
    rw [(List.mergeSort_perm _ _).mem_iff, List.mem_filter,
      upcomingFilter_eq_true_iff]
  · intro now assignments
    exact pairwise_dueKey_of_mergeSort _

/-- An assignment due at the very start of the current day, with no
submission object: its due_at is already in the past at mid-morning. -/
def lateTodayAssignment : Assignment := ⟨41, "Problem Set 4", some msPerDay, none⟩

/-- The current time of the C4 counterexample: one hour into day 1. -/
def nowMidMorning : Int := msPerDay + 3600000

/-- An unsubmitted assignment due on the following day. -/
def tomorrowAssignment : Assignment :=
  ⟨42, "Reading Response", some (2 * msPerDay + 3600000), none⟩

/-- C4 as frozen is false on the code: an assignment whose due_at lies in
the past — earlier on the current day — still appears in the upcoming
aggregation, because both sides of the comparison are truncated to
midnight. -/
theorem upcomingAssignments_includes_past_due_today :
    lateTodayAssignment.due_at = some msPerDay ∧ msPerDay < nowMidMorning ∧
      lateTodayAssignment ∈ upcomingAssignments nowMidMorning [lateTodayAssignment] := by
  refine ⟨rfl, by decide, ?_⟩
  have hf : List.filter (upcomingFilter nowMidMorning) [lateTodayAssignment]
      = [lateTodayAssignment] := by decide
  unfold upcomingAssignments
  rw [hf, List.mergeSort_singleton]
  exact List.mem_singleton.mpr rfl

/-- Closed instance of the amended C4: an unsubmitted assignment due
tomorrow is in the upcoming aggregation. -/
theorem upcomingAssignments_spec_witness :
    tomorrowAssignment ∈ upcomingAssignments nowMidMorning [tomorrowAssignment] :=
  (upcomingAssignments_spec.1 nowMidMorning [tomorrowAssignment] tomorrowAssignment).mpr
    ⟨List.mem_singleton.mpr rfl, 2 * msPerDay + 3600000, rfl, rfl, by decide⟩

lemma upcomingExamFilter_eq_true_iff (now : Int) (a : Assignment) :
    upcomingExamFilter now a = true ↔
      ∃ due, a.due_at = some due ∧ isAssignmentSubmitted a = false ∧
        isExamNamed a = true ∧ startOfDay now ≤ startOfDay due := by
  unfold upcomingExamFilter
  cases h : a.due_at with
  | none => simp
  | some due =>
    simp [Bool.and_eq_true, Bool.not_eq_true', decide_eq_true_eq, and_assoc]

lemma head_dueKey_min {l : List Assignment} {e : Assignment}
    (hs : l.Pairwise (fun a b => dueKey a ≤ dueKey b)) (he : l.head? = some e) :
    ∀ b ∈ l, dueKey e ≤ dueKey b := by
  cases l with
  | nil => cases he
  | cons x xs =>
    have hx : x = e := by injection he
    subst hx
    intro b hb
    rcases List.mem_cons.mp hb with hb | hb
    · exact hb ▸ le_refl _
    · exact (List.pairwise_cons.mp hs).1 b hb

/-- The current time of the C5 end-to-end scenario: one hour into day 10. -/
def examScenarioNow : Int := 10 * msPerDay + 3600000

/-- The exam-named assignment of the C5 scenario, due tomorrow, with no
submission object. -/
def midtermExam : Assignment := ⟨7, "Midterm Exam", some (11 * msPerDay + 3600000), none⟩

/-- The non-exam-named assignment of the C5 scenario, due later today. -/
def homeworkToday : Assignment := ⟨8, "Problem Set 9", some (10 * msPerDay + 7200000), none⟩

/-- C5: the days-until-exam headline picks, among upcoming unsubmitted
assignments whose lower-cased title contains exam, final, midterm or test,
one with the earliest due date; and in the concrete scenario the exam
named Midterm Exam due tomorrow with no submission object is selected over
a non-exam-named assignment due today. -/
theorem nearestExam_spec :
    (∀ (now : Int) (assignments : List Assignment) (e : Assignment),
        nearestExam now assignments = some e →
          e ∈ assignments ∧ isExamNamed e = true ∧ isAssignmentSubmitted e = false ∧
            (∃ due, e.due_at = some due ∧ startOfDay now ≤ startOfDay due) ∧
            ∀ b ∈ assignments, upcomingExamFilter now b = true → dueKey e ≤ dueKey b)
    ∧ nearestExam examScenarioNow [midtermExam, homeworkToday] = some midtermExam := by
  constructor
  · intro now assignments e he
    have hmem : e ∈ upcomingExams now assignments :=
      List.mem_of_mem_head? (Option.mem_def.mpr he)
    have hmem2 : e ∈ assignments.filter (upcomingExamFilter now) :=
      (List.mergeSort_perm _ _).mem_iff.mp hmem
    rcases List.mem_filter.mp hmem2 with ⟨hmeml, hfil⟩
    rcases (upcomingExamFilter_eq_true_iff now e).mp hfil with
      ⟨due, hdue, hsub, hexam, hday⟩
    refine ⟨hmeml, hexam, hsub, ⟨due, hdue, hday⟩, ?_⟩
    intro b hb hbfil
    have hbmem : b ∈ upcomingExams now assignments :=
      (List.mergeSort_perm _ _).mem_iff.mpr (List.mem_filter.mpr ⟨hb, hbfil⟩)
    exact head_dueKey_min (pairwise_dueKey_of_mergeSort _) he b hbmem
  · have hf : List.filter (upcomingExamFilter examScenarioNow)
        [midtermExam, homeworkToday] = [midtermExam] := by decide
    unfold nearestExam upcomingExams
    rw [hf, List.mergeSort_singleton]
    rfl

/-- Closed instance of C5: the scenario headline satisfies every selection
property, in particular minimality of its due date among upcoming exams. -/
theorem nearestExam_spec_witness :
    midtermExam ∈ [midtermExam, homeworkToday] ∧ isExamNamed midtermExam = true ∧
      isAssignmentSubmitted midtermExam = false ∧
      (∃ due, midtermExam.due_at = some due ∧
        startOfDay examScenarioNow ≤ startOfDay due) ∧
      ∀ b ∈ [midtermExam, homeworkToday],
        upcomingExamFilter examScenarioNow b = true → dueKey midtermExam ≤ dueKey b :=
  nearestExam_spec.1 examScenarioNow [midtermExam, homeworkToday] midtermExam
    nearestExam_spec.2

/-! ## Auto-refresh scheduling (courseStorage and CoursesProvider.tsx) -/

/-- getAutoRefreshInterval over the stored value: none when the key is
absent, some none when parseInt yields NaN, some (some n) for a parsed
integer; absent, unparseable and negative values default to 5. -/
def getAutoRefreshInterval (stored : Option (Option Int)) : Int :=
  match stored with
  | none => 5
  | some none => 5
  | some (some n) => if n < 0 then 5 else n

/-- saveAutoRefreshInterval: negative inputs are clamped to 0, then the
value is stored as its decimal string (parsed back as itself). -/
def saveAutoRefreshInterval (intervalMinutes : Int) : Option (Option Int) :=
  some (some (if intervalMinutes < 0 then 0 else intervalMinutes))

/-- setupAutoRefresh: the previous interval handle is always cleared; with
no token, or an interval of at most 0 minutes, no timer is created,
otherwise a repeating timer with the interval in milliseconds. -/
def setupAutoRefresh (prevTimer : Option Int) (hasToken : Bool)
    (intervalMinutes : Int) : Option Int :=
  if !hasToken then none
  else if intervalMinutes ≤ 0 then none
  else some (intervalMinutes * 60000)

/-- How many scheduled refresh fetches a timer state fires while elapsedMs
milliseconds pass: none for a cleared timer, one per full interval else. -/
def scheduledFetchCount (timer : Option Int) (elapsedMs : Nat) : Nat :=
  match timer with
  | none => 0
  | some intervalMs => elapsedMs / intervalMs.toNat

/-- C6: an auto-refresh interval saved as 0 is read back as 0, a setup with
interval 0 clears any existing timer and creates none, the resulting state
fires no scheduled fetch no matter how much time elapses, and the state a
setup produces never depends on the previously configured timer. -/
theorem autoRefresh_zero_disables :
    getAutoRefreshInterval (saveAutoRefreshInterval 0) = 0
    ∧ (∀ (prevTimer : Option Int) (hasToken : Bool),
        setupAutoRefresh prevTimer hasToken 0 = none)
    ∧ (∀ (prevTimer : Option Int) (elapsedMs : Nat),
        scheduledFetchCount
          (setupAutoRefresh prevTimer true
            (getAutoRefreshInterval (saveAutoRefreshInterval 0))) elapsedMs = 0)
    ∧ (∀ (prevTimer : Option Int) (hasToken : Bool) (intervalMinutes : Int),
        setupAutoRefresh prevTimer hasToken intervalMinutes =
          setupAutoRefresh none hasToken intervalMinutes) := by
  refine ⟨rfl, ?_, ?_, ?_⟩
  · intro prevTimer hasToken
    cases hasToken <;> rfl
  · intro prevTimer elapsedMs
    rfl
  · intro prevTimer hasToken intervalMinutes
    rfl

/-! ## Persisted-store write outcomes (courseStorage save functions) -/

/-- The observable result of the underlying localStorage.setItem call: a
DOMException with code 22 models quota exhaustion, otherError any other
thrown failure. -/
inductive StorageWriteResult where
  | ok
  | quotaExceeded
  | otherError (message : String)
deriving DecidableEq

/-- What a save function does from the caller's point of view: return, or
throw an error with a message. -/
inductive SaveOutcome where
  | success
  | threw (message : String)
deriving DecidableEq

/-- The message saveCourseFiles throws on a quota failure. -/
def quotaMessageFiles : String :=
  "Storage quota exceeded. Please delete some files to free up space."

/-- The message saveCachedCanvasFiles and saveCachedExtractedText throw on
a quota failure. -/
def quotaMessageCache : String :=
  "Storage quota exceeded. Please clear some cached files to free up space."

/-- Whether a save outcome is the distinguishable quota-exceeded error. -/
def isQuotaOutcome : SaveOutcome → Bool
  | .success => false
  | .threw message =>
    startsWithChars message.toList ("Storage quota exceeded".toList)

/-- saveCourseFiles: no-op outside a browser; a quota failure is rethrown
as the distinguishable quota message, any other failure is rethrown as is. -/
def saveCourseFiles (hasWindow : Bool) (write : StorageWriteResult) : SaveOutcome :=
  if !hasWindow then .success
  else
    match write with
    | .ok => .success
    | .quotaExceeded => .threw quotaMessageFiles
    | .otherError message => .threw message

/-- saveCachedCanvasFiles: same shape as saveCourseFiles with the cache
wording. -/
def saveCachedCanvasFiles (hasWindow : Bool) (write : StorageWriteResult) : SaveOutcome :=
  if !hasWindow then .success
  else
    match write with
    | .ok => .success
    | .quotaExceeded => .threw quotaMessageCache
    | .otherError message => .threw message

/-- saveCachedExtractedText: same shape as saveCourseFiles with the cache
wording. -/
def saveCachedExtractedText (hasWindow : Bool) (write : StorageWriteResult) : SaveOutcome :=
  if !hasWindow then .success
  else
    match write with
    | .ok => .success
    | .quotaExceeded => .threw quotaMessageCache
    | .otherError message => .threw message

/-- saveCourseChatMessages: its catch block only logs, so every write
failure — quota exhaustion included — is swallowed and the call returns
normally. -/
def saveCourseChatMessages (hasWindow : Bool) (write : StorageWriteResult) : SaveOutcome :=
  .success

/-- C8 as frozen is false on the code: the chat-message write swallows a
quota-exhaustion failure instead of surfacing it, returning success and
hence no distinguishable quota error. -/
theorem saveCourseChatMessages_swallows_quota :
    saveCourseChatMessages true .quotaExceeded = .success ∧
      isQuotaOutcome (saveCourseChatMessages true .quotaExceeded) = false :=
  ⟨rfl, rfl⟩

/-- C8 (amended): the three file-cache writers surface a quota-exhaustion
failure as the distinguishable quota-exceeded error, distinct from the
passthrough of other write failures, while the chat-message writer swallows
every write failure. -/
theorem quota_exhaustion_surfaced :
    saveCourseFiles true .quotaExceeded = .threw quotaMessageFiles
    ∧ saveCachedCanvasFiles true .quotaExceeded = .threw quotaMessageCache
    ∧ saveCachedExtractedText true .quotaExceeded = .threw quotaMessageCache
    ∧ isQuotaOutcome (saveCourseFiles true .quotaExceeded) = true
    ∧ isQuotaOutcome (saveCachedCanvasFiles true .quotaExceeded) = true
    ∧ isQuotaOutcome (saveCachedExtractedText true .quotaExceeded) = true
    ∧ (∀ message : String, saveCourseFiles true (.otherError message) = .threw message)
    ∧ isQuotaOutcome (saveCourseFiles true (.otherError "SecurityError")) = false
    ∧ (∀ write : StorageWriteResult, saveCourseChatMessages true write = .success) := by
  refine ⟨rfl, rfl, rfl, by decide, by decide, by decide, ?_, by decide, ?_⟩
  · intro message
    rfl
  · intro write
    rfl

/-! ## Hiding courses (courseStorage hideCourse / showCourse) -/

/-- One chat turn as persisted per course. -/
structure ChatMessage where
  id : String
  text : String
  sender : String
deriving DecidableEq

/-- A user-uploaded document; courseId is none for semester documents. -/
structure UploadedFile where
  id : String
  name : String
  type : String
  size : Nat
  data : String
  uploadDate : String
  courseId : Option Nat
deriving DecidableEq

/-- The slice of the persisted local store the hide and show operations
can observe: the hidden-course id list plus the per-course stores the
claim requires to stay untouched. -/
structure LocalStore where
  hiddenCourses : List Nat
  nicknames : Nat → Option String
  chats : Nat → List ChatMessage
  uploadedFiles : Option Nat → List UploadedFile
  canvasFiles : Nat → List CachedCanvasFile
  extractedTexts : Nat → Option CachedExtractedTexts

/-- hideCourse: append the id to the hidden list unless already present;
no other key is read or written. -/
def hideCourse (canvasId : Nat) (s : LocalStore) : LocalStore :=
  if s.hiddenCourses.contains canvasId then s
  else { s with hiddenCourses := s.hiddenCourses ++ [canvasId] }

/-- showCourse: drop every occurrence of the id from the hidden list. -/
def showCourse (canvasId : Nat) (s : LocalStore) : LocalStore :=
  { s with hiddenCourses := s.hiddenCourses.filter (fun id => id != canvasId) }

/-- A Canvas course as returned by the courses endpoint. -/
structure RawCourse where
  id : Nat
  name : String
  course_code : String
deriving DecidableEq

/-- A course prepared for the UI, nickname applied. -/
structure CourseWithNickname where
  canvasId : Nat
  name : String
  courseCode : String
  nickname : String
  href : String
deriving DecidableEq

/-- applyNicknamesToCourses: drop hidden courses, then decorate each course
with its nickname (falling back to the name) and its course page href.
The slug the source computes on the course code is dead local state — the
href uses the course id — and is not modelled. -/
def applyNicknamesToCourses (nicknames : Nat → Option String) (hidden : List Nat)
    (courses : List RawCourse) : List CourseWithNickname :=
  (courses.filter (fun course => !(hidden.contains course.id))).map (fun course =>
    { canvasId := course.id
      name := course.name
      courseCode := course.course_code
      nickname := (nicknames course.id).getD course.name
      href := "/course/" ++ toString course.id })

/-- The counterexample store: course 7 is already hidden. -/
def storeWithHidden7 : LocalStore :=
  ⟨[7], fun _ => none, fun _ => [], fun _ => [], fun _ => [], fun _ => none⟩

/-- C9 as frozen is false on the code: hiding a course that is already
hidden is a no-op, so the show that follows does not restore the hidden
set to its prior value — the course comes out unhidden. -/
theorem hideCourse_not_always_reversible :
    storeWithHidden7.hiddenCourses = [7] ∧
      (showCourse 7 (hideCourse 7 storeWithHidden7)).hiddenCourses = [] := by
  constructor
  · rfl
  · rfl

/-- C9 (amended): hiding a course changes nothing but the hidden-course
list; the course is hidden afterwards and the course aggregation excludes
it; and for a course that was not already hidden, a subsequent show
restores the store exactly, so hiding a visible course is reversible
without data loss. -/
theorem hideCourse_frame_and_reversible :
    (∀ (canvasId : Nat) (s : LocalStore),
        (hideCourse canvasId s).nicknames = s.nicknames
        ∧ (hideCourse canvasId s).chats = s.chats
        ∧ (hideCourse canvasId s).uploadedFiles = s.uploadedFiles
        ∧ (hideCourse canvasId s).canvasFiles = s.canvasFiles
        ∧ (hideCourse canvasId s).extractedTexts = s.extractedTexts)
    ∧ (∀ (canvasId : Nat) (s : LocalStore),
        canvasId ∈ (hideCourse canvasId s).hiddenCourses)
    ∧ (∀ (canvasId : Nat) (s : LocalStore) (nicknames : Nat → Option String)
        (courses : List RawCourse) (r : CourseWithNickname),
        r ∈ applyNicknamesToCourses nicknames (hideCourse canvasId s).hiddenCourses courses →
          r.canvasId ≠ canvasId)
    ∧ (∀ (canvasId : Nat) (s : LocalStore),
        canvasId ∉ s.hiddenCourses → showCourse canvasId (hideCourse canvasId s) = s) := by
  refine ⟨?_, ?_, ?_, ?_⟩
  · intro canvasId s
    unfold hideCourse
    by_cases h : s.hiddenCourses.contains canvasId
    · rw [if_pos h]
      exact ⟨rfl, rfl, rfl, rfl, rfl⟩
    · rw [if_neg h]
      exact ⟨rfl, rfl, rfl, rfl, rfl⟩
  · intro canvasId s
    unfold hideCourse
    by_cases h : s.hiddenCourses.contains canvasId
    · rw [if_pos h]
      exact List.elem_iff.mp h
    · rw [if_neg h]
      exact List.mem_append.mpr (Or.inr (List.mem_singleton.mpr rfl))
  · intro canvasId s nicknames courses r hr
    have hhid : canvasId ∈ (hideCourse canvasId s).hiddenCourses := by
      unfold hideCourse
      by_cases h : s.hiddenCourses.contains canvasId
      · rw [if_pos h]
        exact List.elem_iff.mp h
      · rw [if_neg h]
        exact List.mem_append.mpr (Or.inr (List.mem_singleton.mpr rfl))
    unfold applyNicknamesToCourses at hr
    rcases List.mem_map.mp hr with ⟨course, hcmem, hceq⟩
    rcases List.mem_filter.mp hcmem with ⟨_, hnot⟩
    intro hcontra
    have hcid : course.id = canvasId := by
      have : r.canvasId = course.id := by rw [← hceq]
      rw [← this, hcontra]
    rw [hcid] at hnot
    rw [Bool.not_eq_true', ← Bool.not_eq_true] at hnot
    exact hnot (List.elem_iff.mpr hhid)
  · intro canvasId s hnot
    have hc : s.hiddenCourses.contains canvasId = false := by
      rw [← Bool.not_eq_true]
      intro hcon
      exact hnot (List.elem_iff.mp hcon)
    unfold hideCourse
    rw [hc]
    simp only [Bool.false_eq_true, if_false]
    unfold showCourse
    have hfilter : (s.hiddenCourses ++ [canvasId]).filter (fun id => id != canvasId)
        = s.hiddenCourses := by
      rw [List.filter_append]
      have h1 : s.hiddenCourses.filter (fun id => id != canvasId) = s.hiddenCourses := by
        apply List.filter_eq_self.mpr
        intro a ha
        exact bne_iff_ne.mpr (fun heq => hnot (heq ▸ ha))
      have h2 : [canvasId].filter (fun id => id != canvasId) = [] := by
        simp
      rw [h1, h2, List.append_nil]
    simp only [hfilter]

/-- Closed instance of the amended C9: hiding then showing a course that
was visible restores the store exactly. -/
theorem hideCourse_frame_and_reversible_witness :
    showCourse 9 (hideCourse 9 storeWithHidden7) = storeWithHidden7 :=
  hideCourse_frame_and_reversible.2.2.2 9 storeWithHidden7 (by decide)
